import Mathlib

/-!
Verification of the campaign send-scheduling and daily-quota subsystem of the
sales-agent dashboard. The repository ships a React frontend that calls a
scheduling backend (schedule CRUD, campaign start/pause, quota-paced dispatch)
over HTTP; the backend bodies are not part of the provided sources, so the
engine below is modelled from the specification (each such definition says so
in its doc comment), while the pieces that do appear in the frontend sources
(the schedule form's timezone list and its daily-send-limit change handler)
are translated from the source files directly.

Conventions: instants are minutes since 2020-01-01T00:00 UTC as `Int`;
naive local wall-clock datetimes use the same minute scale without an offset.
-/

namespace SalesAgent

abbrev CampaignId := Nat
abbrev LeadId := Nat
abbrev Day := Int

/-! ## Calendar arithmetic -/

/-- Gregorian leap-year test. -/
def isLeap (y : Nat) : Bool :=
  (y % 4 == 0 && y % 100 != 0) || y % 400 == 0

/-- Number of days in month `m` (1-12) of year `y`. -/
def daysInMonth (y m : Nat) : Nat :=
  if m = 2 then (if isLeap y then 29 else 28)
  else if m = 4 ∨ m = 6 ∨ m = 9 ∨ m = 11 then 30
  else 31

/-- Number of days in year `y`. -/
def daysInYear (y : Nat) : Nat := if isLeap y then 366 else 365

/-- Days from 2020-01-01 to the first day of year `y`. -/
def daysBeforeYear (y : Nat) : Nat :=
  (List.range (y - 2020)).foldl (fun acc k => acc + daysInYear (2020 + k)) 0

/-- Days from the first of January to the first of month `m` in year `y`. -/
def daysBeforeMonth (y m : Nat) : Nat :=
  (List.range (m - 1)).foldl (fun acc k => acc + daysInMonth y (k + 1)) 0

/-- Minutes since the 2020-01-01T00:00 epoch of the (naive) datetime
`y-m-d hh:mm`. Used both for UTC instants and for naive local wall-clock
datetimes. -/
def minutesOf (y m d hh mm : Nat) : Int :=
  (((daysBeforeYear y + daysBeforeMonth y m + (d - 1)) * 1440 + hh * 60 + mm : Nat) : Int)

/-! ## Timezones and local-time resolution

Modelled from the spec (§4.2 Clock/Time Resolver): the backend sources are not
in the repository snapshot, so the resolver is built from the specification's
words: `resolveStart` interprets `start_date` + `start_time` as wall-clock
local time in `timezone`; a local time in a spring-forward gap resolves to the
nearest valid instant after the gap (the gap scenario in §8 pins this down as
shifting forward by the gap length, i.e. interpreting the wall time with the
pre-transition offset); a local time occurring twice in a fall-back overlap
resolves to the first occurrence. -/

/-- One UTC-offset change: at UTC instant `trAt` the offset (minutes east of
UTC) moves from `before` to `after`. -/
structure TzTransition where
  trAt : Int
  before : Int
  after : Int
deriving DecidableEq, Repr

/-- Modelled from the spec: a zone's offset rules, as a base offset and a
chronological list of offset transitions. -/
structure Timezone where
  base : Int
  transitions : List TzTransition
deriving DecidableEq, Repr

/-- Offset (minutes east of UTC) in force at UTC instant `t`. -/
def offsetAt (tz : Timezone) (t : Int) : Int :=
  tz.transitions.foldl (fun acc tr => if tr.trAt ≤ t then tr.after else acc) tz.base

/-- The local wall-clock rendering (naive minutes) of UTC instant `t`. -/
def localOf (tz : Timezone) (t : Int) : Int := t + offsetAt tz t

/-- All offsets a zone can ever be in. -/
def candOffsets (tz : Timezone) : List Int :=
  tz.base :: tz.transitions.map (fun tr => tr.after)

/-- The offsets under which the naive local datetime `L` denotes a real
instant of the zone. -/
def validOffsets (tz : Timezone) (L : Int) : List Int :=
  (candOffsets tz).filter (fun o => decide (offsetAt tz (L - o) = o))

/-- Largest element of a list of offsets. -/
def maxOffset : List Int → Option Int
  | [] => none
  | o :: rest =>
    match maxOffset rest with
    | none => some o
    | some m => some (max o m)

/-- Modelled from the spec: resolve a naive local datetime `L` to a UTC
instant. A unique interpretation is taken as is; in a fall-back overlap the
first occurrence (the earlier instant, i.e. the larger offset) wins; in a
spring-forward gap the wall time is interpreted with the pre-transition
offset, which lands on the gap length past the transition — the nearest valid
instant after the gap in the sense of §8's scenario. -/
def resolveLocal (tz : Timezone) (L : Int) : Option Int :=
  match maxOffset (validOffsets tz L) with
  | some o => some (L - o)
  | none =>
    match tz.transitions.find? (fun tr =>
        decide (tr.before < tr.after ∧ tr.trAt + tr.before ≤ L ∧ L < tr.trAt + tr.after)) with
    | some tr => some (L - tr.before)
    | none => none

/-- Modelled from the spec: the America/New_York offset rules for 2025
(EST −300 min; EDT −240 min between 2025-03-09 07:00 UTC and
2025-11-02 06:00 UTC). -/
def nyRules : Timezone :=
  { base := -300
  , transitions :=
      [ { trAt := minutesOf 2025 3 9 7 0, before := -300, after := -240 }
      , { trAt := minutesOf 2025 11 2 6 0, before := -240, after := -300 } ] }

/-- Modelled from the spec: the offset rules backing the recognized zone
identifiers that the claims exercise. -/
def zoneRules (name : String) : Option Timezone :=
  if name = "UTC" then some { base := 0, transitions := [] }
  else if name = "America/New_York" then some nyRules
  else none

/-! ### First-occurrence property of the resolver -/

lemma foldl_offset_mem (p : TzTransition → Prop) [DecidablePred p] (b : Int)
    (l : List TzTransition) :
    l.foldl (fun acc tr => if p tr then tr.after else acc) b ∈ b :: l.map (fun tr => tr.after) := by
  induction l generalizing b with
  | nil => simp
  | cons tr rest ih =>
    simp only [List.foldl_cons, List.map_cons]
    by_cases hc : p tr
    · rw [if_pos hc]
      exact List.mem_cons_of_mem b (ih tr.after)
    · rw [if_neg hc]
      rcases List.mem_cons.mp (ih b) with h | h
      · rw [h]
        exact List.mem_cons_self _ _
      · exact List.mem_cons_of_mem _ (List.mem_cons_of_mem _ h)

lemma offsetAt_mem (tz : Timezone) (t : Int) : offsetAt tz t ∈ candOffsets tz := by
  unfold offsetAt candOffsets
  exact foldl_offset_mem (fun tr => tr.trAt ≤ t) tz.base tz.transitions

lemma maxOffset_eq_none {l : List Int} : maxOffset l = none ↔ l = [] := by
  cases l with
  | nil => simp [maxOffset]
  | cons o rest =>
    simp only [maxOffset]
    cases maxOffset rest <;> simp

lemma maxOffset_spec (l : List Int) (hne : l ≠ []) :
    ∃ m, maxOffset l = some m ∧ m ∈ l ∧ ∀ x ∈ l, x ≤ m := by
  induction l with
  | nil => exact absurd rfl hne
  | cons o rest ih =>
    cases hr : maxOffset rest with
    | none =>
      have hrest : rest = [] := maxOffset_eq_none.mp hr
      subst hrest
      exact ⟨o, by simp [maxOffset], by simp, by simp⟩
    | some m =>
      have hrne : rest ≠ [] := by
        intro hh
        rw [hh] at hr
        simp [maxOffset] at hr
      obtain ⟨m2, hm2, hmem2, hmax2⟩ := ih hrne
      rw [hm2] at hr
      cases hr
      refine ⟨max o m, by simp [maxOffset, hm2], ?_, ?_⟩
      · rcases le_total o m with h | h
        · simp only [max_eq_right h]
          exact List.mem_cons_of_mem _ hmem2
        · simp only [max_eq_left h]
          exact List.mem_cons_self _ _
      · intro x hx
        rcases List.mem_cons.mp hx with h | h
        · subst h; exact le_max_left _ _
        · exact le_trans (hmax2 x h) (le_max_right _ _)

lemma mem_validOffsets_iff (tz : Timezone) (L o : Int) :
    o ∈ validOffsets tz L ↔ o ∈ candOffsets tz ∧ offsetAt tz (L - o) = o := by
  simp [validOffsets, List.mem_filter]

/-- Whenever a naive local datetime `L` is the rendering of some real instant,
the resolver returns the earliest such instant (the first occurrence). -/
lemma resolveLocal_first_occurrence (tz : Timezone) (L t : Int) (h : localOf tz t = L) :
    ∃ u, resolveLocal tz L = some u ∧ u ≤ t ∧ localOf tz u = L := by
  have ht : L - offsetAt tz t = t := by
    unfold localOf at h
    omega
  have ho : offsetAt tz t ∈ validOffsets tz L := by
    rw [mem_validOffsets_iff]
    refine ⟨offsetAt_mem tz t, ?_⟩
    rw [ht]
  have hne : validOffsets tz L ≠ [] := by
    intro hh
    rw [hh] at ho
    exact absurd ho (List.not_mem_nil _)
  obtain ⟨m, hm, hmem, hmax⟩ := maxOffset_spec _ hne
  have hval : offsetAt tz (L - m) = m := ((mem_validOffsets_iff tz L m).mp hmem).2
  refine ⟨L - m, ?_, ?_, ?_⟩
  · unfold resolveLocal
    rw [hm]
  · have := hmax _ ho
    omega
  · unfold localOf
    rw [hval]
    omega

/-! ## Schedules and validation -/

/-- The timezone option values offered by the schedule form
(frontend `ScheduleForm`, `TIMEZONES` constant): the recognized zone
identifiers. Translated from the source. -/
def recognizedTimezones : List String :=
  [ "UTC", "America/New_York", "America/Chicago", "America/Denver"
  , "America/Los_Angeles", "Europe/London", "Europe/Paris", "Europe/Berlin"
  , "Asia/Tokyo", "Asia/Shanghai", "Asia/Kolkata", "Australia/Sydney" ]

/-- Modelled from the spec (§3 Schedule): per-campaign schedule record. The
date is `(year, month, day)`, the time `(hour, minute)`. The same shape is
the raw `setSchedule` input, validated before being stored. -/
structure Schedule where
  start_date : Nat × Nat × Nat
  start_time : Nat × Nat
  timezone : String
  daily_send_limit : Int
deriving DecidableEq, Repr

/-- `daily_send_limit` must lie in [1, 500]. -/
def limitOk (n : Int) : Bool := 1 ≤ n && n ≤ 500

/-- A valid 24-hour local time. -/
def validTime (hh mm : Nat) : Bool := hh < 24 && mm < 60

/-- A valid calendar date. -/
def validDate (y m d : Nat) : Bool := 1 ≤ m && m ≤ 12 && 1 ≤ d && d ≤ daysInMonth y m

/-- Modelled from the spec (§4.1): the fields of a `setSchedule` input that
violate validation, every violated field listed, not just the first. -/
def violatedFields (s : Schedule) : List String :=
  (if limitOk s.daily_send_limit then [] else ["daily_send_limit"]) ++
  (if s.timezone ∈ recognizedTimezones then [] else ["timezone"]) ++
  (if validTime s.start_time.1 s.start_time.2 then [] else ["start_time"]) ++
  (if validDate s.start_date.1 s.start_date.2.1 s.start_date.2.2 then [] else ["start_date"])

/-- The schedule's start as a naive local datetime. -/
def naiveStart (s : Schedule) : Int :=
  minutesOf s.start_date.1 s.start_date.2.1 s.start_date.2.2 s.start_time.1 s.start_time.2

/-- Modelled from the spec (§4.2): resolve `(start_date, start_time)` in the
schedule's timezone to an absolute instant. -/
def resolveStart (s : Schedule) : Option Int :=
  (zoneRules s.timezone).bind (fun tz => resolveLocal tz (naiveStart s))

/-- Modelled from the spec (§4.2): the calendar date (as a day number) an
instant falls on when rendered in the schedule's timezone — the key used for
`DailyQuota`. -/
def sendDayFor (s : Schedule) (t : Int) : Day :=
  match zoneRules s.timezone with
  | some tz => (localOf tz t).fdiv 1440
  | none => t.fdiv 1440

/-! ## Campaigns, system state, and operations

Modelled from the spec (§3-§4.5): the backend that stores campaigns, enforces
the state machine and tracks `DailyQuota` is not in the repository snapshot
(the frontend only calls it over HTTP), so its state and operations are built
from the specification. -/

/-- Campaign lifecycle states (§4.5). -/
inductive Status where
  | draft
  | active
  | paused
  | completed
deriving DecidableEq, Repr

/-- Modelled from the spec: a campaign with its status, optional schedule,
associated leads in insertion/creation order, and the leads already
sent-to (consumed read-only for eligibility). -/
structure Campaign where
  status : Status
  schedule : Option Schedule
  leads : List LeadId
  sentTo : List LeadId
deriving DecidableEq, Repr

/-- Modelled from the spec: persisted state — campaigns keyed by id and the
`DailyQuota` counters keyed by (campaign, send-day). -/
structure SystemState where
  campaigns : List (CampaignId × Campaign)
  quotas : List ((CampaignId × Day) × Nat)
deriving DecidableEq, Repr

/-- Error taxonomy (§7). -/
inductive Err where
  | ValidationError (fields : List String)
  | InvalidTransition
  | QuotaExceeded
  | NotFound
deriving DecidableEq, Repr

def findCampaign (st : SystemState) (cid : CampaignId) : Option Campaign :=
  (st.campaigns.find? (fun p => p.1 == cid)).map (fun p => p.2)

/-- Replace the stored record of campaign `cid`. -/
def setCampaign (st : SystemState) (cid : CampaignId) (c : Campaign) : SystemState :=
  { st with campaigns := st.campaigns.map (fun p => if p.1 == cid then (cid, c) else p) }

/-- `sent_count` for `(cid, d)`; a missing row counts as 0 (§4.3). -/
def quotaCount (st : SystemState) (cid : CampaignId) (d : Day) : Nat :=
  ((st.quotas.find? (fun p => p.1 == (cid, d))).map (fun p => p.2)).getD 0

/-- Store a new counter value for `(cid, d)` (row created lazily on first
write). -/
def setQuota (st : SystemState) (cid : CampaignId) (d : Day) (n : Nat) : SystemState :=
  { st with quotas := ((cid, d), n) :: st.quotas.filter (fun p => !(p.1 == (cid, d))) }

/-- Modelled from the spec (§4.5): the transition table. -/
def allowedPairs : List (Status × Status) :=
  [ (Status.draft, Status.active), (Status.active, Status.paused)
  , (Status.paused, Status.active), (Status.draft, Status.completed)
  , (Status.active, Status.completed), (Status.paused, Status.completed) ]

/-- Modelled from the spec (§4.5): a transition is allowed when it is in the
table and, for `draft -> active`, the campaign has at least one lead. -/
def transitionAllowed (c : Campaign) (target : Status) : Bool :=
  decide ((c.status, target) ∈ allowedPairs) &&
    (if c.status = Status.draft ∧ target = Status.active then !c.leads.isEmpty else true)

/-- Modelled from the spec (§4.5): attempt a status transition; a disallowed
one fails with `InvalidTransition` and leaves state unchanged. -/
def transition (st : SystemState) (cid : CampaignId) (target : Status) :
    Except Err SystemState :=
  match findCampaign st cid with
  | none => Except.error Err.NotFound
  | some c =>
    if transitionAllowed c target then
      Except.ok (setCampaign st cid { c with status := target })
    else Except.error Err.InvalidTransition

/-- Modelled from the spec (§4.1): validate and upsert the campaign's
schedule (create-or-replace, no partial merge); `DailyQuota` rows are left
untouched. -/
def setSchedule (st : SystemState) (cid : CampaignId) (input : Schedule) :
    Except Err SystemState :=
  match findCampaign st cid with
  | none => Except.error Err.NotFound
  | some c =>
    if violatedFields input = [] then
      Except.ok (setCampaign st cid { c with schedule := some input })
    else Except.error (Err.ValidationError (violatedFields input))

/-- Modelled from the spec (§4.1). -/
def getSchedule (st : SystemState) (cid : CampaignId) : Option Schedule :=
  (findCampaign st cid).bind (fun c => c.schedule)

/-- Modelled from the spec (§4.1): deleting the schedule reverts the campaign
to unscheduled mode without deleting the campaign. -/
def deleteSchedule (st : SystemState) (cid : CampaignId) : Except Err SystemState :=
  match findCampaign st cid with
  | none => Except.error Err.NotFound
  | some c => Except.ok (setCampaign st cid { c with schedule := none })

/-- Modelled from the spec (§4.3): `daily_send_limit` minus today's
`sent_count`. -/
def remainingQuota (st : SystemState) (cid : CampaignId) (sch : Schedule) (now : Int) : Int :=
  sch.daily_send_limit - (quotaCount st cid (sendDayFor sch now) : Int)

/-- Modelled from the spec (§4.3): atomically re-check the limit and
increment `sent_count`, failing with `QuotaExceeded` instead of
over-counting. -/
def recordSend (st : SystemState) (cid : CampaignId) (d : Day) : Except Err SystemState :=
  match findCampaign st cid with
  | none => Except.error Err.NotFound
  | some c =>
    match c.schedule with
    | none => Except.error Err.NotFound
    | some sch =>
      let n := quotaCount st cid d
      if (n : Int) < sch.daily_send_limit then Except.ok (setQuota st cid d (n + 1))
      else Except.error Err.QuotaExceeded

/-- Dispatch-plan outcomes (§4.4). -/
inductive Outcome where
  | Eligible
  | SkippedNotStarted
  | SkippedQuotaExhausted
  | SkippedCampaignNotActive
deriving DecidableEq, Repr

/-- Modelled from the spec: the eligible-lead source — leads not yet
sent-to, in stable insertion/creation order. -/
def eligibleLeads (c : Campaign) : List LeadId :=
  c.leads.filter (fun l => decide (¬ l ∈ c.sentTo))

/-- Mark the first `r` leads `Eligible` and the rest `SkippedQuotaExhausted`,
preserving order. -/
def markQuota : Nat → List LeadId → List (LeadId × Outcome)
  | _, [] => []
  | 0, l :: ls => (l, Outcome.SkippedQuotaExhausted) :: markQuota 0 ls
  | r + 1, l :: ls => (l, Outcome.Eligible) :: markQuota r ls

/-- Modelled from the spec (§4.4): the dispatch planner. Not active → all
`SkippedCampaignNotActive`; no schedule → no automatic pacing; before the
resolved start → all `SkippedNotStarted`; otherwise up to `remainingQuota`
leads are `Eligible` in order, the rest `SkippedQuotaExhausted`. -/
def planBatch (st : SystemState) (cid : CampaignId) (now : Int) :
    List (LeadId × Outcome) :=
  match findCampaign st cid with
  | none => []
  | some c =>
    if c.status ≠ Status.active then
      (eligibleLeads c).map (fun l => (l, Outcome.SkippedCampaignNotActive))
    else
      match c.schedule with
      | none => []
      | some sch =>
        match resolveStart sch with
        | none => []
        | some s =>
          if now < s then (eligibleLeads c).map (fun l => (l, Outcome.SkippedNotStarted))
          else markQuota (remainingQuota st cid sch now).toNat (eligibleLeads c)

/-- The API operations whose effect on persisted state the claims are about. -/
inductive Op where
  | opTransition (cid : CampaignId) (target : Status)
  | opSetSchedule (cid : CampaignId) (input : Schedule)
  | opDeleteSchedule (cid : CampaignId)
  | opRecordSend (cid : CampaignId) (d : Day)
  | opPlanBatch (cid : CampaignId) (now : Int)
deriving DecidableEq, Repr

/-- Keep the new state of a successful call; a failed call leaves the
persisted state as it was. -/
def commit (st : SystemState) : Except Err SystemState → SystemState
  | Except.ok st2 => st2
  | Except.error _ => st

/-- The state after one API call (planning is read-only: §4.4 step 5). -/
def applyOp (st : SystemState) : Op → SystemState
  | Op.opTransition cid target => commit st (transition st cid target)
  | Op.opSetSchedule cid input => commit st (setSchedule st cid input)
  | Op.opDeleteSchedule cid => commit st (deleteSchedule st cid)
  | Op.opRecordSend cid d => commit st (recordSend st cid d)
  | Op.opPlanBatch _ _ => st

/-- Run a sequence of API calls. -/
def run (st : SystemState) (ops : List Op) : SystemState :=
  ops.foldl applyOp st

/-- `n` successive `recordSend` calls against one `(cid, d)`. -/
def runRecordSends (st : SystemState) (cid : CampaignId) (d : Day) : Nat → SystemState
  | 0 => st
  | n + 1 => applyOp (runRecordSends st cid d n) (Op.opRecordSend cid d)

/-- The claimed `DailyQuota` invariant, checked over all recorded counters:
each `sent_count` is at most the owning campaign's current
`daily_send_limit`. -/
def quotaInvariantHolds (st : SystemState) : Bool :=
  st.quotas.all (fun entry =>
    match findCampaign st entry.1.1 with
    | some c =>
      match c.schedule with
      | some sch => decide ((entry.2 : Int) ≤ sch.daily_send_limit)
      | none => true
    | none => true)

/-! ## Lemmas about the planner's marking pass -/

lemma markQuota_map_fst (r : Nat) (ls : List LeadId) :
    (markQuota r ls).map Prod.fst = ls := by
  induction ls generalizing r with
  | nil => cases r <;> rfl
  | cons l ls ih => cases r <;> simp [markQuota, ih]

lemma markQuota_getElem? (r i : Nat) (ls : List LeadId) :
    (markQuota r ls)[i]? = (ls[i]?).map
      (fun l => (l, if i < r then Outcome.Eligible else Outcome.SkippedQuotaExhausted)) := by
  induction ls generalizing r i with
  | nil => cases r <;> simp [markQuota]
  | cons l ls ih =>
    cases r with
    | zero =>
      cases i with
      | zero => simp [markQuota]
      | succ j => simp [markQuota, ih]
    | succ r2 =>
      cases i with
      | zero => simp [markQuota]
      | succ j => simp [markQuota, ih, Nat.succ_lt_succ_iff]

lemma markQuota_count_eligible (r : Nat) (ls : List LeadId) :
    ((markQuota r ls).filter (fun p => decide (p.2 = Outcome.Eligible))).length
      = min r ls.length := by
  induction ls generalizing r with
  | nil => cases r <;> simp [markQuota]
  | cons l ls ih =>
    cases r with
    | zero => simp [markQuota, ih]
    | succ r2 =>
      simp only [markQuota, List.filter_cons, List.length_cons]
      simp [ih]
      omega

lemma markQuota_count_skipped (r : Nat) (ls : List LeadId) :
    ((markQuota r ls).filter (fun p => decide (p.2 = Outcome.SkippedQuotaExhausted))).length
      = ls.length - min r ls.length := by
  induction ls generalizing r with
  | nil => cases r <;> simp [markQuota]
  | cons l ls ih =>
    cases r with
    | zero =>
      simp only [markQuota, List.filter_cons, List.length_cons]
      simp [ih]
    | succ r2 =>
      simp only [markQuota, List.filter_cons, List.length_cons]
      simp [ih]
      omega

/-! ## Lemmas about the keyed stores -/

lemma find_update_self (l : List (CampaignId × Campaign)) (cid : CampaignId)
    (c c2 : Campaign) (h : (l.find? (fun p => p.1 == cid)).map (fun p => p.2) = some c) :
    ((l.map (fun p => if p.1 == cid then (cid, c2) else p)).find?
        (fun p => p.1 == cid)).map (fun p => p.2) = some c2 := by
  induction l with
  | nil => simp at h
  | cons p rest ih =>
    cases hp : (p.1 == cid) with
    | true =>
      simp only [List.map_cons, if_pos hp, List.find?_cons, hp]
      simp [List.find?_cons]
    | false =>
      simp only [List.find?_cons, hp] at h
      simp only [List.map_cons, List.find?_cons, hp, Bool.false_eq_true, if_false]
      exact ih h

lemma findCampaign_setCampaign_self (st : SystemState) (cid : CampaignId)
    (c c2 : Campaign) (h : findCampaign st cid = some c) :
    findCampaign (setCampaign st cid c2) cid = some c2 := by
  unfold findCampaign setCampaign at *
  exact find_update_self st.campaigns cid c c2 h

lemma update_update (l : List (CampaignId × Campaign)) (cid : CampaignId)
    (c1 c2 : Campaign) :
    (l.map (fun p => if p.1 == cid then (cid, c1) else p)).map
        (fun p => if p.1 == cid then (cid, c2) else p)
      = l.map (fun p => if p.1 == cid then (cid, c2) else p) := by
  rw [List.map_map]
  apply List.map_congr_left
  intro p _
  simp only [Function.comp]
  by_cases hp : (p.1 == cid) = true
  · rw [if_pos hp, if_pos (show ((cid, c1).1 == cid) = true by simp), if_pos hp]
  · rw [if_neg hp, if_neg hp]

lemma setCampaign_setCampaign (st : SystemState) (cid : CampaignId) (c1 c2 : Campaign) :
    setCampaign (setCampaign st cid c1) cid c2 = setCampaign st cid c2 := by
  unfold setCampaign
  simp only [update_update]

lemma update_self_of_nodup (l : List (CampaignId × Campaign)) (cid : CampaignId)
    (c : Campaign) (hnd : (l.map Prod.fst).Nodup)
    (h : (l.find? (fun p => p.1 == cid)).map (fun p => p.2) = some c) :
    l.map (fun p => if p.1 == cid then (cid, c) else p) = l := by
  induction l with
  | nil => simp at h
  | cons p rest ih =>
    simp only [List.map_cons, List.nodup_cons] at hnd
    cases hp : (p.1 == cid) with
    | true =>
      simp only [List.find?_cons, hp] at h
      have hc : p.2 = c := by simpa using h
      have hp1 : p.1 = cid := by simpa using hp
      have hrest : ∀ q ∈ rest, (q.1 == cid) = false := by
        intro q hq
        rcases Bool.eq_false_or_eq_true (q.1 == cid) with ht | hf
        · exfalso
          have hqk : q.1 = cid := by simpa using ht
          exact absurd
            (show p.1 ∈ rest.map Prod.fst by
              rw [hp1, ← hqk]; exact List.mem_map_of_mem Prod.fst hq)
            hnd.1
        · exact hf
      have htail : rest.map (fun q => if q.1 == cid then (cid, c) else q) = rest :=
        calc rest.map (fun q => if q.1 == cid then (cid, c) else q)
            = rest.map id := List.map_congr_left (fun q hq => by simp [hrest q hq])
          _ = rest := List.map_id rest
      have hhead : ((cid, c) : CampaignId × Campaign) = p := by
        have hpe : p = (cid, c) := by
          rw [← hp1, ← hc]
        exact hpe.symm
      simp only [List.map_cons, if_pos hp]
      rw [htail, hhead]
    | false =>
      simp only [List.find?_cons, hp] at h
      simp only [List.map_cons, hp, Bool.false_eq_true, if_false]
      rw [ih hnd.2 h]

lemma setCampaign_self_of_nodup (st : SystemState) (cid : CampaignId) (c : Campaign)
    (hnd : (st.campaigns.map Prod.fst).Nodup) (h : findCampaign st cid = some c) :
    setCampaign st cid c = st := by
  unfold findCampaign at h
  unfold setCampaign
  rw [update_self_of_nodup st.campaigns cid c hnd h]

lemma quotaCount_setQuota (st : SystemState) (cid : CampaignId) (d : Day) (n : Nat) :
    quotaCount (setQuota st cid d n) cid d = n := by
  simp [quotaCount, setQuota, List.find?_cons]

/-! ## Frame lemmas: which operations touch which parts of the state -/

lemma campaigns_setQuota (st : SystemState) (cid : CampaignId) (d : Day) (n : Nat) :
    (setQuota st cid d n).campaigns = st.campaigns := rfl

lemma quotas_setCampaign (st : SystemState) (cid : CampaignId) (c : Campaign) :
    (setCampaign st cid c).quotas = st.quotas := rfl

lemma applyOp_recordSend_campaigns (st : SystemState) (cid : CampaignId) (d : Day) :
    (applyOp st (Op.opRecordSend cid d)).campaigns = st.campaigns := by
  simp only [applyOp]
  cases hfc : findCampaign st cid with
  | none => simp [recordSend, hfc, commit]
  | some c =>
    cases hsch : c.schedule with
    | none => simp [recordSend, hfc, hsch, commit]
    | some sch =>
      by_cases hlt : ((quotaCount st cid d : Int) < sch.daily_send_limit)
      · simp [recordSend, hfc, hsch, hlt, commit, setQuota]
      · simp [recordSend, hfc, hsch, hlt, commit]

lemma applyOp_transition_quotas (st : SystemState) (cid : CampaignId) (target : Status) :
    (applyOp st (Op.opTransition cid target)).quotas = st.quotas := by
  simp only [applyOp]
  cases hfc : findCampaign st cid with
  | none => simp [transition, hfc, commit]
  | some c =>
    by_cases hta : transitionAllowed c target = true
    · simp [transition, hfc, hta, commit, setCampaign]
    · simp [transition, hfc, hta, commit]

lemma applyOp_setSchedule_quotas (st : SystemState) (cid : CampaignId) (input : Schedule) :
    (applyOp st (Op.opSetSchedule cid input)).quotas = st.quotas := by
  simp only [applyOp]
  cases hfc : findCampaign st cid with
  | none => simp [setSchedule, hfc, commit]
  | some c =>
    by_cases hv : violatedFields input = []
    · simp [setSchedule, hfc, hv, commit, setCampaign]
    · simp [setSchedule, hfc, hv, commit]

lemma applyOp_deleteSchedule_quotas (st : SystemState) (cid : CampaignId) :
    (applyOp st (Op.opDeleteSchedule cid)).quotas = st.quotas := by
  simp only [applyOp]
  cases hfc : findCampaign st cid with
  | none => simp [deleteSchedule, hfc, commit]
  | some c => simp [deleteSchedule, hfc, commit, setCampaign]

/-! ## The schedule form's daily-limit change handler (from the source)

The frontend `ScheduleForm` stores the daily-limit field with
`onChange={(e) => setDailyLimit(Number(e.target.value) || 50)}`. The JS
`Number` coercion is embedded on the integer-string fragment the numeric
input produces: an empty value coerces to 0, an optional minus sign followed
by digits to the signed integer, anything else to NaN (`none`). -/

/-- Digit-string value: `none` when the list is empty or holds a
non-digit. -/
def parseDigits (cs : List Char) : Option Nat :=
  if cs ≠ [] ∧ cs.all (fun ch => ch.isDigit) then
    some (cs.foldl (fun acc ch => acc * 10 + (ch.toNat - 48)) 0)
  else none

/-- JS `Number(value)` on the integer-string fragment; `none` models NaN. -/
def jsToNumber (cs : List Char) : Option Int :=
  if cs = [] then some 0
  else
    match cs with
    | '-' :: rest => (parseDigits rest).map (fun n => -(n : Int))
    | _ => (parseDigits cs).map (fun n => (n : Int))

/-- Translated from the source (`ScheduleForm`, daily-limit input):
`Number(e.target.value) || 50` — 0 and NaN are replaced by 50, everything
else is stored as coerced. -/
def scheduleFormDailyLimitChange (value : List Char) : Int :=
  match jsToNumber value with
  | none => 50
  | some n => if n = 0 then 50 else n

/-! ## Claim C10 -/

/-- C10: every change to the schedule form's daily-send-limit field whose
value coerces to 0 or NaN (including clearing the field) silently stores 50
instead of rejecting the input; negative typed values are stored as entered;
consequently the stored daily limit is always numeric and never 0. -/
theorem c10_daily_limit_fallback :
    scheduleFormDailyLimitChange [] = 50 ∧
    ∀ value : List Char,
      ((jsToNumber value = none ∨ jsToNumber value = some 0) →
        scheduleFormDailyLimitChange value = 50) ∧
      (∀ n : Int, jsToNumber value = some n → n < 0 →
        scheduleFormDailyLimitChange value = n) ∧
      scheduleFormDailyLimitChange value ≠ 0 := by
  refine ⟨by decide, ?_⟩
  intro value
  refine ⟨?_, ?_, ?_⟩
  · rintro (h | h) <;> simp [scheduleFormDailyLimitChange, h]
  · intro n hn hneg
    simp only [scheduleFormDailyLimitChange, hn]
    rw [if_neg (by omega : ¬ n = 0)]
  · cases h : jsToNumber value with
    | none => simp [scheduleFormDailyLimitChange, h]
    | some n =>
      simp only [scheduleFormDailyLimitChange, h]
      by_cases hz : n = 0
      · rw [if_pos hz]
        decide
      · rw [if_neg hz]
        exact hz

theorem c10_witness :
    scheduleFormDailyLimitChange [Char.ofNat 48] = 50 ∧
    scheduleFormDailyLimitChange [Char.ofNat 97] = 50 ∧
    scheduleFormDailyLimitChange [Char.ofNat 45, Char.ofNat 53] = -5 := by
  refine ⟨?_, ?_, ?_⟩
  · exact (c10_daily_limit_fallback.2 [Char.ofNat 48]).1 (Or.inr (by decide))
  · exact (c10_daily_limit_fallback.2 [Char.ofNat 97]).1 (Or.inl (by decide))
  · exact (c10_daily_limit_fallback.2 [Char.ofNat 45, Char.ofNat 53]).2.1 (-5)
      (by decide) (by decide)

/-! ## Claim C3 -/

/-- The §8 gap scenario: schedule (2025-03-09, 02:30, America/New_York,
limit 3) — a wall time inside the US spring-forward gap. -/
def gapSchedule : Schedule :=
  { start_date := (2025, 3, 9), start_time := (2, 30)
  , timezone := "America/New_York", daily_send_limit := 3 }

/-- C3: `resolveStart` interprets `(start_date, start_time)` as wall-clock
local time in the schedule's timezone; a local time that occurs (once or
twice) resolves to its first occurrence — for a fall-back overlap the
earlier instant — and the spring-forward-gap scenario of §8 resolves,
without error, to the instant whose local rendering is 03:30. -/
theorem c3_resolveStart_dst :
    (∀ (tz : Timezone) (L t : Int), localOf tz t = L →
      ∃ u, resolveLocal tz L = some u ∧ u ≤ t ∧ localOf tz u = L) ∧
    resolveStart gapSchedule = some (minutesOf 2025 3 9 7 30) ∧
    localOf nyRules (minutesOf 2025 3 9 7 30) = minutesOf 2025 3 9 3 30 ∧
    resolveLocal nyRules (minutesOf 2025 11 2 1 30) = some (minutesOf 2025 11 2 5 30) ∧
    offsetAt nyRules (minutesOf 2025 11 2 5 30) = -240 := by
  refine ⟨resolveLocal_first_occurrence, by decide, by decide, by decide, by decide⟩

theorem c3_witness :
    localOf nyRules (minutesOf 2025 11 2 5 30) = minutesOf 2025 11 2 1 30 ∧
    ∃ u, resolveLocal nyRules (minutesOf 2025 11 2 1 30) = some u ∧
      u ≤ minutesOf 2025 11 2 5 30 ∧
      localOf nyRules u = minutesOf 2025 11 2 1 30 :=
  ⟨by decide, c3_resolveStart_dst.1 nyRules (minutesOf 2025 11 2 1 30)
    (minutesOf 2025 11 2 5 30) (by decide)⟩

/-! ## Claim C2 -/

/-- C2: for an active, started campaign with a schedule, `planBatch` walks
the eligible leads in their stable insertion order and marks exactly
`min(remainingQuota, number of eligible leads)` of them `Eligible`, in list
order, with every eligible lead beyond that count marked
`SkippedQuotaExhausted`. -/
theorem c2_planBatch_quota (st : SystemState) (cid : CampaignId) (now : Int)
    (c : Campaign) (sch : Schedule) (s : Int) (r : Nat)
    (hc : findCampaign st cid = some c)
    (hst : c.status = Status.active)
    (hsch : c.schedule = some sch)
    (hres : resolveStart sch = some s)
    (hnow : s ≤ now)
    (hr : r = (remainingQuota st cid sch now).toNat) :
    (planBatch st cid now).map Prod.fst = eligibleLeads c ∧
    (∀ i : Nat, (planBatch st cid now)[i]? = ((eligibleLeads c)[i]?).map
      (fun l => (l, if i < r then Outcome.Eligible else Outcome.SkippedQuotaExhausted))) ∧
    ((planBatch st cid now).filter (fun p => decide (p.2 = Outcome.Eligible))).length
      = min r (eligibleLeads c).length ∧
    ((planBatch st cid now).filter
        (fun p => decide (p.2 = Outcome.SkippedQuotaExhausted))).length
      = (eligibleLeads c).length - min r (eligibleLeads c).length := by
  have hplan : planBatch st cid now = markQuota r (eligibleLeads c) := by
    simp [planBatch, hc, hst, hsch, hres, not_lt.mpr hnow, hr]
  rw [hplan]
  exact ⟨markQuota_map_fst r _, fun i => markQuota_getElem? r i _,
    markQuota_count_eligible r _, markQuota_count_skipped r _⟩

/-- The §8 end-to-end scenario: 5 eligible leads, `daily_send_limit = 3`,
campaign active and already started. -/
def c2Schedule : Schedule :=
  { start_date := (2025, 1, 1), start_time := (9, 0), timezone := "UTC"
  , daily_send_limit := 3 }

def c2Campaign : Campaign :=
  { status := Status.active, schedule := some c2Schedule
  , leads := [1, 2, 3, 4, 5], sentTo := [] }

def c2State : SystemState := { campaigns := [(7, c2Campaign)], quotas := [] }

def c2Now : Int := minutesOf 2025 1 1 9 0

theorem c2_witness :
    ((planBatch c2State 7 c2Now).filter
        (fun p => decide (p.2 = Outcome.Eligible))).length = 3 ∧
    ((planBatch c2State 7 c2Now).filter
        (fun p => decide (p.2 = Outcome.SkippedQuotaExhausted))).length = 2 := by
  have h := c2_planBatch_quota c2State 7 c2Now c2Campaign c2Schedule c2Now 3
    rfl rfl rfl (by decide) le_rfl (by decide)
  refine ⟨?_, ?_⟩
  · rw [h.2.2.1]
    decide
  · rw [h.2.2.2]
    decide

/-! ## Claim C4 -/

/-- C4: `completed` is terminal (no transition out of it is in the table),
and every transition not in the table fails with `InvalidTransition` and
leaves the state — in particular the campaign's status — unchanged. -/
theorem c4_invalid_transition :
    (∀ target : Status, (Status.completed, target) ∉ allowedPairs) ∧
    ∀ (st : SystemState) (cid : CampaignId) (c : Campaign) (target : Status),
      findCampaign st cid = some c →
      (c.status, target) ∉ allowedPairs →
      transition st cid target = Except.error Err.InvalidTransition ∧
      applyOp st (Op.opTransition cid target) = st := by
  constructor
  · intro target
    cases target <;> decide
  · intro st cid c target hc hmem
    have hta : transitionAllowed c target = false := by
      unfold transitionAllowed
      simp [hmem]
    refine ⟨?_, ?_⟩
    · simp [transition, hc, hta]
    · simp [applyOp, transition, hc, hta, commit]

def c4Campaign : Campaign :=
  { status := Status.draft, schedule := none, leads := [9], sentTo := [] }

def c4State : SystemState := { campaigns := [(3, c4Campaign)], quotas := [] }

theorem c4_witness :
    transition c4State 3 Status.paused = Except.error Err.InvalidTransition ∧
    applyOp c4State (Op.opTransition 3 Status.paused) = c4State :=
  c4_invalid_transition.2 c4State 3 c4Campaign Status.paused rfl (by decide)

/-! ## Claim C5 -/

/-- C5: for a campaign in `draft`, the start operation (`draft -> active`)
succeeds if and only if the campaign has at least one associated lead; with
zero leads it fails with `InvalidTransition` and the campaign stays as it
was. -/
theorem c5_start_guard (st : SystemState) (cid : CampaignId) (c : Campaign)
    (hc : findCampaign st cid = some c) (hd : c.status = Status.draft) :
    ((∃ st2, transition st cid Status.active = Except.ok st2) ↔ c.leads ≠ []) ∧
    (c.leads = [] →
      transition st cid Status.active = Except.error Err.InvalidTransition ∧
      applyOp st (Op.opTransition cid Status.active) = st) := by
  have hta : transitionAllowed c Status.active = !c.leads.isEmpty := by
    unfold transitionAllowed
    simp [hd, allowedPairs]
  constructor
  · constructor
    · rintro ⟨st2, h2⟩ hnil
      rw [hnil] at hta
      simp at hta
      simp [transition, hc, hta] at h2
    · intro hne
      have hie : c.leads.isEmpty = false := by
        cases hl : c.leads with
        | nil => exact absurd hl hne
        | cons a as => rfl
      refine ⟨setCampaign st cid { c with status := Status.active }, ?_⟩
      simp [transition, hc, hta, hie]
  · intro hnil
    have hfalse : transitionAllowed c Status.active = false := by
      rw [hta, hnil]
      rfl
    exact ⟨by simp [transition, hc, hfalse],
      by simp [applyOp, transition, hc, hfalse, commit]⟩

def c5Campaign : Campaign :=
  { status := Status.draft, schedule := none, leads := [], sentTo := [] }

def c5State : SystemState := { campaigns := [(4, c5Campaign)], quotas := [] }

theorem c5_witness :
    transition c5State 4 Status.active = Except.error Err.InvalidTransition ∧
    applyOp c5State (Op.opTransition 4 Status.active) = c5State :=
  (c5_start_guard c5State 4 c5Campaign rfl rfl).2 rfl

/-! ## Claim C6 -/

/-- C6: `setSchedule` succeeds exactly when `daily_send_limit` lies in
[1, 500], the timezone is a recognized zone identifier, the start time is a
valid 24-hour local time and the start date is a valid calendar date; on
violation it fails with a `ValidationError` whose field list contains every
violated field — each of the four fields is listed precisely when its
constraint fails. -/
theorem c6_setSchedule_validation (st : SystemState) (cid : CampaignId) (c : Campaign)
    (input : Schedule) (hc : findCampaign st cid = some c) :
    ((∃ st2, setSchedule st cid input = Except.ok st2) ↔ violatedFields input = []) ∧
    (violatedFields input ≠ [] →
      setSchedule st cid input = Except.error (Err.ValidationError (violatedFields input))) ∧
    (violatedFields input = [] ↔
      (limitOk input.daily_send_limit = true ∧
       input.timezone ∈ recognizedTimezones ∧
       validTime input.start_time.1 input.start_time.2 = true ∧
       validDate input.start_date.1 input.start_date.2.1 input.start_date.2.2 = true)) ∧
    ("daily_send_limit" ∈ violatedFields input ↔ limitOk input.daily_send_limit = false) ∧
    ("timezone" ∈ violatedFields input ↔ input.timezone ∉ recognizedTimezones) ∧
    ("start_time" ∈ violatedFields input ↔
      validTime input.start_time.1 input.start_time.2 = false) ∧
    ("start_date" ∈ violatedFields input ↔
      validDate input.start_date.1 input.start_date.2.1 input.start_date.2.2 = false) := by
  cases h1 : limitOk input.daily_send_limit <;>
    by_cases h2 : input.timezone ∈ recognizedTimezones <;>
      cases h3 : validTime input.start_time.1 input.start_time.2 <;>
        cases h4 : validDate input.start_date.1 input.start_date.2.1 input.start_date.2.2 <;>
          simp_all [violatedFields, setSchedule, hc]

def c6Campaign : Campaign :=
  { status := Status.draft, schedule := none, leads := [8], sentTo := [] }

def c6State : SystemState := { campaigns := [(5, c6Campaign)], quotas := [] }

/-- An input violating two constraints at once (limit 0, unknown zone). -/
def c6BadInput : Schedule :=
  { start_date := (2025, 1, 15), start_time := (9, 0)
  , timezone := "Mars/Base", daily_send_limit := 0 }

theorem c6_witness :
    violatedFields c6BadInput = ["daily_send_limit", "timezone"] ∧
    setSchedule c6State 5 c6BadInput
      = Except.error (Err.ValidationError (violatedFields c6BadInput)) :=
  ⟨by decide,
   (c6_setSchedule_validation c6State 5 c6Campaign c6BadInput rfl).2.1 (by decide)⟩

/-! ## Claim C7 -/

/-- C7: for a valid input, `setSchedule` immediately followed by
`getSchedule` returns exactly the stored input (all four fields), and
`deleteSchedule` immediately followed by `getSchedule` returns absent while
the campaign itself still exists, unchanged apart from losing its
schedule. -/
theorem c7_roundtrip (st : SystemState) (cid : CampaignId) (c : Campaign)
    (input : Schedule) (hc : findCampaign st cid = some c)
    (hv : violatedFields input = []) :
    getSchedule (applyOp st (Op.opSetSchedule cid input)) cid = some input ∧
    getSchedule (applyOp st (Op.opDeleteSchedule cid)) cid = none ∧
    findCampaign (applyOp st (Op.opDeleteSchedule cid)) cid
      = some { c with schedule := none } := by
  have hdel : applyOp st (Op.opDeleteSchedule cid)
      = setCampaign st cid { c with schedule := none } := by
    simp [applyOp, deleteSchedule, hc, commit]
  have hfcd : findCampaign (setCampaign st cid { c with schedule := none }) cid
      = some { c with schedule := none } :=
    findCampaign_setCampaign_self st cid c _ hc
  refine ⟨?_, ?_, ?_⟩
  · have hset : applyOp st (Op.opSetSchedule cid input)
        = setCampaign st cid { c with schedule := some input } := by
      simp [applyOp, setSchedule, hc, hv, commit]
    rw [hset]
    have hfcs := findCampaign_setCampaign_self st cid c { c with schedule := some input } hc
    simp [getSchedule, hfcs]
  · rw [hdel]
    simp [getSchedule, hfcd]
  · rw [hdel]
    exact hfcd

def c7Input : Schedule :=
  { start_date := (2025, 6, 2), start_time := (8, 30)
  , timezone := "Europe/Paris", daily_send_limit := 120 }

def c7Campaign : Campaign :=
  { status := Status.draft, schedule := none, leads := [21, 22], sentTo := [] }

def c7State : SystemState := { campaigns := [(6, c7Campaign)], quotas := [] }

theorem c7_witness :
    getSchedule (applyOp c7State (Op.opSetSchedule 6 c7Input)) 6 = some c7Input ∧
    getSchedule (applyOp c7State (Op.opDeleteSchedule 6)) 6 = none ∧
    findCampaign (applyOp c7State (Op.opDeleteSchedule 6)) 6
      = some { c7Campaign with schedule := none } :=
  c7_roundtrip c7State 6 c7Campaign c7Input rfl (by decide)

/-! ## Claim C8 -/

/-- C8: `planBatch` performs no state mutation — applying it leaves the
persisted state unchanged, so two calls in immediate succession yield the
identical ordered plan — and among the API operations only `recordSend` can
change the quota counters. -/
theorem c8_planBatch_pure (st : SystemState) (cid : CampaignId) (now : Int) :
    applyOp st (Op.opPlanBatch cid now) = st ∧
    planBatch (applyOp st (Op.opPlanBatch cid now)) cid now = planBatch st cid now ∧
    ∀ op : Op, (∀ cid2 d2, op ≠ Op.opRecordSend cid2 d2) →
      (applyOp st op).quotas = st.quotas := by
  refine ⟨rfl, rfl, ?_⟩
  intro op hop
  cases op with
  | opTransition cid2 t => exact applyOp_transition_quotas st cid2 t
  | opSetSchedule cid2 i => exact applyOp_setSchedule_quotas st cid2 i
  | opDeleteSchedule cid2 => exact applyOp_deleteSchedule_quotas st cid2
  | opRecordSend cid2 d2 => exact absurd rfl (hop cid2 d2)
  | opPlanBatch cid2 n2 => rfl

def c8Campaign : Campaign :=
  { status := Status.active, schedule := none, leads := [1], sentTo := [] }

def c8State : SystemState := { campaigns := [(2, c8Campaign)], quotas := [] }

theorem c8_witness :
    applyOp c8State (Op.opPlanBatch 2 0) = c8State ∧
    (applyOp c8State (Op.opTransition 2 Status.paused)).quotas = c8State.quotas :=
  ⟨(c8_planBatch_pure c8State 2 0).1,
   (c8_planBatch_pure c8State 2 0).2.2 (Op.opTransition 2 Status.paused)
     (by intro cid2 d2; simp)⟩

/-! ## Claim C9 -/

/-- C9: replacing a schedule never touches the recorded `DailyQuota`
counters; resuming a paused campaign (`paused -> active`) also leaves the
quota counters and the stored `Schedule` unchanged; and (for a store with
unique campaign keys) `paused -> active -> paused` returns to exactly the
original state. -/
theorem c9_frame (st : SystemState) (cid : CampaignId) (c : Campaign) (input : Schedule)
    (hc : findCampaign st cid = some c) :
    (applyOp st (Op.opSetSchedule cid input)).quotas = st.quotas ∧
    (c.status = Status.paused →
      (applyOp st (Op.opTransition cid Status.active)).quotas = st.quotas ∧
      getSchedule (applyOp st (Op.opTransition cid Status.active)) cid = getSchedule st cid ∧
      ((st.campaigns.map Prod.fst).Nodup →
        applyOp (applyOp st (Op.opTransition cid Status.active))
          (Op.opTransition cid Status.paused) = st)) := by
  refine ⟨applyOp_setSchedule_quotas st cid input, ?_⟩
  intro hp
  have hta : transitionAllowed c Status.active = true := by
    unfold transitionAllowed
    simp [hp, allowedPairs]
  have h1 : applyOp st (Op.opTransition cid Status.active)
      = setCampaign st cid { c with status := Status.active } := by
    simp [applyOp, transition, hc, hta, commit]
  have hfc1 : findCampaign (setCampaign st cid { c with status := Status.active }) cid
      = some { c with status := Status.active } :=
    findCampaign_setCampaign_self st cid c _ hc
  refine ⟨applyOp_transition_quotas st cid Status.active, ?_, ?_⟩
  · rw [h1]
    simp [getSchedule, hfc1, hc]
  · intro hnd
    have hta2 : transitionAllowed { c with status := Status.active } Status.paused = true := by
      unfold transitionAllowed
      simp [allowedPairs]
    have h2 : applyOp (setCampaign st cid { c with status := Status.active })
        (Op.opTransition cid Status.paused)
        = setCampaign (setCampaign st cid { c with status := Status.active }) cid
            { c with status := Status.paused } := by
      simp [applyOp, transition, hfc1, hta2, commit]
    rw [h1, h2, setCampaign_setCampaign]
    have hcc : ({ c with status := Status.paused } : Campaign) = c := by
      cases c
      simp_all
    rw [hcc]
    exact setCampaign_self_of_nodup st cid c hnd hc

def c9Schedule : Schedule :=
  { start_date := (2025, 4, 1), start_time := (10, 0)
  , timezone := "America/Chicago", daily_send_limit := 40 }

def c9Campaign : Campaign :=
  { status := Status.paused, schedule := some c9Schedule, leads := [31], sentTo := [] }

def c9State : SystemState :=
  { campaigns := [(9, c9Campaign)], quotas := [((9, 20180), 7)] }

theorem c9_witness :
    (applyOp c9State (Op.opSetSchedule 9 c9Schedule)).quotas = c9State.quotas ∧
    (applyOp c9State (Op.opTransition 9 Status.active)).quotas = c9State.quotas ∧
    getSchedule (applyOp c9State (Op.opTransition 9 Status.active)) 9
      = getSchedule c9State 9 ∧
    applyOp (applyOp c9State (Op.opTransition 9 Status.active))
      (Op.opTransition 9 Status.paused) = c9State := by
  have h := c9_frame c9State 9 c9Campaign c9Schedule rfl
  have h2 := h.2 rfl
  exact ⟨h.1, h2.1, h2.2.1, h2.2.2 (by decide)⟩

/-! ## Claim C1 -/

/-- C1 (amended): from any state in which a campaign's `sent_count` for a
send-day is within its schedule's `daily_send_limit`, any number of further
`recordSend` calls against that `(campaignId, sendDay)` keeps
`sent_count ≤ daily_send_limit`, and an over-allocation attempt fails with
`QuotaExceeded` and does not increment. (Each `recordSend` is atomic per
§4.3, so a concurrent interleaving is a sequence of these calls.) -/
theorem c1_recordSend_bounded (st : SystemState) (cid : CampaignId) (d : Day)
    (c : Campaign) (sch : Schedule)
    (hc : findCampaign st cid = some c) (hsch : c.schedule = some sch) :
    ((quotaCount st cid d : Int) ≤ sch.daily_send_limit →
      ∀ n : Nat,
        (quotaCount (runRecordSends st cid d n) cid d : Int) ≤ sch.daily_send_limit) ∧
    (sch.daily_send_limit ≤ (quotaCount st cid d : Int) →
      recordSend st cid d = Except.error Err.QuotaExceeded ∧
      applyOp st (Op.opRecordSend cid d) = st) := by
  constructor
  · intro h0 n
    suffices h : (runRecordSends st cid d n).campaigns = st.campaigns ∧
        (quotaCount (runRecordSends st cid d n) cid d : Int) ≤ sch.daily_send_limit from h.2
    induction n with
    | zero => exact ⟨rfl, h0⟩
    | succ n ih =>
      obtain ⟨hcamp, hcnt⟩ := ih
      have hfc2 : findCampaign (runRecordSends st cid d n) cid = some c := by
        unfold findCampaign at hc ⊢
        rw [hcamp]
        exact hc
      constructor
      · show (applyOp (runRecordSends st cid d n) (Op.opRecordSend cid d)).campaigns
            = st.campaigns
        rw [applyOp_recordSend_campaigns]
        exact hcamp
      · show (quotaCount (applyOp (runRecordSends st cid d n) (Op.opRecordSend cid d))
            cid d : Int) ≤ sch.daily_send_limit
        by_cases hlt :
            ((quotaCount (runRecordSends st cid d n) cid d : Int) < sch.daily_send_limit)
        · have happ : applyOp (runRecordSends st cid d n) (Op.opRecordSend cid d)
              = setQuota (runRecordSends st cid d n) cid d
                  (quotaCount (runRecordSends st cid d n) cid d + 1) := by
            simp [applyOp, recordSend, hfc2, hsch, hlt, commit]
          rw [happ, quotaCount_setQuota]
          push_cast
          omega
        · have happ : applyOp (runRecordSends st cid d n) (Op.opRecordSend cid d)
              = runRecordSends st cid d n := by
            simp [applyOp, recordSend, hfc2, hsch, hlt, commit]
          rw [happ]
          exact hcnt
  · intro hge
    have hnlt : ¬ ((quotaCount st cid d : Int) < sch.daily_send_limit) := not_lt.mpr hge
    exact ⟨by simp [recordSend, hc, hsch, hnlt],
      by simp [applyOp, recordSend, hc, hsch, hnlt, commit]⟩

/-- A schedule valid in every field with the given daily limit. -/
def c1Schedule (lim : Int) : Schedule :=
  { start_date := (2025, 1, 1), start_time := (9, 0), timezone := "UTC"
  , daily_send_limit := lim }

def c1Campaign : Campaign :=
  { status := Status.active, schedule := some (c1Schedule 2), leads := [10, 11], sentTo := [] }

def c1State : SystemState := { campaigns := [(1, c1Campaign)], quotas := [] }

/-- Two quota-respecting sends, then a legal schedule replacement that lowers
the daily limit to 1 — which §4.1 says must not reset recorded quotas. -/
def c1Ops : List Op :=
  [Op.opRecordSend 1 20089, Op.opRecordSend 1 20089, Op.opSetSchedule 1 (c1Schedule 1)]

/-- C1 counterexample: the invariant `sent_count ≤ daily_send_limit` holds in
the initial state but is violated in a reachable state — after two recorded
sends the schedule is replaced (validly) with `daily_send_limit = 1`, leaving
`sent_count = 2 > 1`. -/
theorem c1_counterexample :
    quotaInvariantHolds c1State = true ∧
    quotaInvariantHolds (run c1State c1Ops) = false ∧
    quotaCount (run c1State c1Ops) 1 20089 = 2 ∧
    (getSchedule (run c1State c1Ops) 1).map Schedule.daily_send_limit = some 1 := by
  refine ⟨by decide, by decide, by decide, by decide⟩

theorem c1_witness :
    (quotaCount (runRecordSends c1State 1 20089 5) 1 20089 : Int)
      ≤ (c1Schedule 2).daily_send_limit :=
  (c1_recordSend_bounded c1State 1 20089 c1Campaign (c1Schedule 2) rfl rfl).1
    (by decide) 5

end SalesAgent
